import Mathlib

/-!
Verification of the Electron serial-port chooser context
(`shell/browser/serial/serial_chooser_context.cc`).

The C++ source is shallowly embedded: `base::UnguessableToken` becomes a
pair of natural numbers below `2^64`, `base::Value` dictionaries produced
by `PortInfoToValue` become a record of optional fields (one per key that
the component ever writes), the platform-conditional compilation
(`OS_WIN` / `OS_MAC` / other) becomes an explicit `Platform` parameter,
and the mutable `SerialChooserContext` object becomes a `ChooserState`
value threaded through the operations.  Dereference of a possibly-null
`FindStringKey` / `FindIntKey` result is modelled by `Option`, with
`none` standing for the undefined behaviour of dereferencing a null
pointer.
-/

namespace Electron

/-- A `base::UnguessableToken`: two 64-bit halves.  The default-constructed
(null) token is `⟨0, 0⟩`. -/
structure Token where
  high : Nat
  low : Nat
deriving DecidableEq, Repr

/-- `base::UnguessableToken()` — the null / sentinel token. -/
def nullToken : Token := ⟨0, 0⟩

/-- The two halves fit in 64 bits (invariant of the C++ type). -/
def Token.inBounds (t : Token) : Prop :=
  t.high < 18446744073709551616 ∧ t.low < 18446744073709551616

/-! ## Base64 (`base::Base64Encode` / `base::Base64Decode`)

The base64 library is outside this repository; it is embedded here with
the standard alphabet, `=`-padded, groups of four characters.  Arithmetic
uses `/` and `%` by powers of two, which on `Nat` agree with the shifts
and masks the C library uses. -/

/-- The standard base64 alphabet, index 0 to 63. -/
def b64Alphabet : List Char :=
  String.data
    "ABCDEFGHIJKLMNOPQRSTUVWXYZabcdefghijklmnopqrstuvwxyz0123456789+/"

/-- Character for a 6-bit value. -/
def encChar (v : Nat) : Char := b64Alphabet.getD v '?'

/-- 6-bit value of an alphabet character, `none` outside the alphabet. -/
def decChar (c : Char) : Option Nat :=
  let i := b64Alphabet.indexOf c
  if i < 64 then some i else none

/-- Base64-encode a byte list (bytes are naturals below 256). -/
def b64encBytes : List Nat → List Char
  | [] => []
  | [b1] =>
      [encChar (b1 / 4), encChar (b1 % 4 * 16), '=', '=']
  | [b1, b2] =>
      [encChar (b1 / 4), encChar (b1 % 4 * 16 + b2 / 16),
       encChar (b2 % 16 * 4), '=']
  | b1 :: b2 :: b3 :: rest =>
      encChar (b1 / 4) :: encChar (b1 % 4 * 16 + b2 / 16) ::
      encChar (b2 % 16 * 4 + b3 / 64) :: encChar (b3 % 64) ::
      b64encBytes rest

/-- Base64-decode a character list; `none` on malformed input. -/
def b64decBytes : List Char → Option (List Nat)
  | [] => some []
  | c1 :: c2 :: c3 :: c4 :: rest =>
      if c3 = '=' then
        if c4 = '=' ∧ rest = [] then
          match decChar c1, decChar c2 with
          | some v1, some v2 => some [v1 * 4 + v2 / 16]
          | _, _ => none
        else none
      else if c4 = '=' then
        if rest = [] then
          match decChar c1, decChar c2, decChar c3 with
          | some v1, some v2, some v3 =>
              some [v1 * 4 + v2 / 16, v2 % 16 * 16 + v3 / 4]
          | _, _, _ => none
        else none
      else
        match decChar c1, decChar c2, decChar c3, decChar c4 with
        | some v1, some v2, some v3, some v4 =>
            (b64decBytes rest).map
              (fun bs => (v1 * 4 + v2 / 16) :: (v2 % 16 * 16 + v3 / 4) ::
                         (v3 % 4 * 64 + v4) :: bs)
        | _, _, _, _ => none
  | _ => none

/-- `base::Base64Decode` at the string boundary. -/
def Base64Decode (s : String) : Option (List Nat) := b64decBytes s.data

/-- The 16-byte serialization the C++ writes: `data[0]`
(`GetHighForSerialization`) first, then `data[1]` (low), each uint64 in
the machine's little-endian byte order. -/
def tokenBytes (t : Token) : List Nat :=
  [t.high % 256, t.high / 256 % 256, t.high / 65536 % 256,
   t.high / 16777216 % 256, t.high / 4294967296 % 256,
   t.high / 1099511627776 % 256, t.high / 281474976710656 % 256,
   t.high / 72057594037927936 % 256,
   t.low % 256, t.low / 256 % 256, t.low / 65536 % 256,
   t.low / 16777216 % 256, t.low / 4294967296 % 256,
   t.low / 1099511627776 % 256, t.low / 281474976710656 % 256,
   t.low / 72057594037927936 % 256]

/-- `EncodeToken`: base64 of the token's 16-byte serialization. -/
def EncodeToken (t : Token) : String := String.mk (b64encBytes (tokenBytes t))

/-- Little-endian value of a byte list (`reinterpret_cast<const uint64_t*>`). -/
def leVal : List Nat → Nat
  | [] => 0
  | b :: rest => b + 256 * leVal rest

/-- `DecodeToken`: base64-decode, require exactly 16 bytes, then
`Deserialize(data[0], data[1])`; any failure yields the null token. -/
def DecodeToken (s : String) : Token :=
  match Base64Decode s with
  | none => nullToken
  | some bs =>
      if bs.length = 16 then
        ⟨leVal (bs.take 8), leVal (bs.drop 8)⟩
      else nullToken

/-! ## The chooser context

The `#if defined(OS_WIN)` / `#if defined(OS_MAC)` conditional compilation
becomes an explicit `Platform` argument; `win` is the build with a stable
`device_instance_id`, `mac` is the build that additionally records the
USB driver name, `other` is the remaining (vendor/product/serial) build. -/

inductive Platform where
  | win
  | mac
  | other
deriving DecidableEq, Repr

/-- `device::mojom::SerialPortInfo`, with exactly the fields this
translation unit reads.  `path` stands for `path.LossyDisplayName()`. -/
structure SerialPortInfo where
  token : Token
  display_name : Option String
  path : String
  device_instance_id : String
  has_vendor_id : Bool
  vendor_id : Nat
  has_product_id : Bool
  product_id : Nat
  serial_number : Option String
  usb_driver_name : Option String
deriving DecidableEq, Repr

/-- `SerialChooserContext::CanStorePersistentEntry`. -/
def CanStorePersistentEntry (plat : Platform) (port : SerialPortInfo) : Bool :=
  match port.display_name with
  | none => false
  | some n =>
      if n = "" then false
      else
        match plat with
        | .win => port.device_instance_id ≠ ""
        | .other =>
            port.has_vendor_id && port.has_product_id &&
              (match port.serial_number with
               | some s => s ≠ ""
               | none => false)
        | .mac =>
            port.has_vendor_id && port.has_product_id &&
              (match port.serial_number with
               | some s => s ≠ ""
               | none => false) &&
              (match port.usb_driver_name with
               | some d => d ≠ ""
               | none => false)

/-- The `base::Value` dictionary built by `PortInfoToValue`: one optional
field per key this component ever writes (`none` = key absent). -/
structure PortRecord where
  name : Option String
  token : Option String
  device_instance_id : Option String
  vendor_id : Option Int
  product_id : Option Int
  serial_number : Option String
  usb_driver : Option String
deriving DecidableEq, Repr

/-- The all-absent dictionary. -/
def emptyRecord : PortRecord :=
  { name := none, token := none, device_instance_id := none,
    vendor_id := none, product_id := none, serial_number := none,
    usb_driver := none }

/-- The `name` value: display name when present and non-empty, otherwise
the lossy display name of the path. -/
def portDisplay (port : SerialPortInfo) : String :=
  match port.display_name with
  | some n => if n = "" then port.path else n
  | none => port.path

/-- `PortInfoToValue`.  In the persistable macOS build both the
vendor/product/serial block and the driver-name block run. -/
def PortInfoToValue (plat : Platform) (port : SerialPortInfo) : PortRecord :=
  let base := { emptyRecord with name := some (portDisplay port) }
  if CanStorePersistentEntry plat port = false then
    { base with token := some (EncodeToken port.token) }
  else
    match plat with
    | .win => { base with device_instance_id := some port.device_instance_id }
    | .other =>
        { base with vendor_id := some (port.vendor_id : Int),
                    product_id := some (port.product_id : Int),
                    serial_number := port.serial_number }
    | .mac =>
        { base with vendor_id := some (port.vendor_id : Int),
                    product_id := some (port.product_id : Int),
                    serial_number := port.serial_number,
                    usb_driver := port.usb_driver_name }

/-- Origin of a requesting frame (`url::Origin`). -/
abbrev Origin := String

/-- `std::map::insert` — a no-op when the key is already present. -/
def mapInsert (k : Token) (v : PortRecord) (m : List (Token × PortRecord)) :
    List (Token × PortRecord) :=
  if m.any (fun kv => decide (kv.1 = k)) then m else m ++ [(k, v)]

/-- Lookup in the live identity map. -/
def mapLookup (k : Token) (m : List (Token × PortRecord)) : Option PortRecord :=
  (m.find? (fun kv => decide (kv.1 = k))).map (fun kv => kv.2)

/-- `std::map::erase` by key. -/
def mapErase (k : Token) (m : List (Token × PortRecord)) :
    List (Token × PortRecord) :=
  m.filter (fun kv => decide (kv.1 ≠ k))

/-- `std::set::insert` on a token set. -/
def setInsert (t : Token) (s : List Token) : List Token :=
  if t ∈ s then s else s ++ [t]

/-- The mutable state of a `SerialChooserContext` together with the slice
of the `ElectronBrowserContext` object store it uses: `port_info` is the
live identity map `port_info_`, `ephemeral_ports` is `ephemeral_ports_`
(a missing origin entry and an empty set are observationally equal, so
the map is total), `granted_objects` is the durable per-origin collection
behind `GrantObjectPermission` / `GetGrantedObjects`, and `observers` is
`port_observer_list_`.  The mojo pipe handles carry no decidable state
and are left out. -/
structure ChooserState where
  port_info : List (Token × PortRecord)
  ephemeral_ports : Origin → List Token
  granted_objects : Origin → List PortRecord
  observers : List Nat

/-- The freshly constructed context over an empty object store. -/
def initialState : ChooserState :=
  { port_info := [], ephemeral_ports := fun _ => [],
    granted_objects := fun _ => [], observers := [] }

/-- `SerialChooserContext::GrantPortPermission`. -/
def GrantPortPermission (plat : Platform) (origin : Origin)
    (port : SerialPortInfo) (s : ChooserState) : ChooserState :=
  let value := PortInfoToValue plat port
  let s1 := { s with port_info := mapInsert port.token value s.port_info }
  if CanStorePersistentEntry plat port then
    { s1 with granted_objects := fun o =>
        if o = origin then s1.granted_objects o ++ [value]
        else s1.granted_objects o }
  else
    { s1 with ephemeral_ports := fun o =>
        if o = origin then setInsert port.token (s1.ephemeral_ports o)
        else s1.ephemeral_ports o }

/-- One step of the durable-grant scan.  The C++ dereferences the result
of `FindIntKey` / `FindStringKey` without a null check, so a record
missing a compared key is undefined behaviour, modelled as `none`.
On the macOS build the driver key is only read once the
vendor/product/serial triple has matched. -/
def matchesRecord (plat : Platform) (r : PortRecord) (port : SerialPortInfo) :
    Option Bool :=
  match plat with
  | .win =>
      match r.device_instance_id with
      | none => none
      | some id => some (decide (port.device_instance_id = id))
  | .other =>
      match r.vendor_id, r.product_id, r.serial_number with
      | some v, some p, some sn =>
          some (decide ((port.vendor_id : Int) = v ∧ (port.product_id : Int) = p
                        ∧ port.serial_number = some sn))
      | _, _, _ => none
  | .mac =>
      match r.vendor_id, r.product_id, r.serial_number with
      | some v, some p, some sn =>
          if (port.vendor_id : Int) = v ∧ (port.product_id : Int) = p
              ∧ port.serial_number = some sn then
            match r.usb_driver with
            | none => none
            | some d => some (decide (port.usb_driver_name = some d))
          else some false
      | _, _, _ => none

/-- The `for` loop over `GetGrantedObjects`: first satisfied record wins,
an incomplete record faults (`none`). -/
def scanGranted (plat : Platform) (port : SerialPortInfo) :
    List PortRecord → Option Bool
  | [] => some false
  | r :: rest =>
      match matchesRecord plat r port with
      | none => none
      | some true => some true
      | some false => scanGranted plat port rest

/-- `SerialChooserContext::HasPortPermission`.  `none` is the undefined
behaviour inherited from `matchesRecord`. -/
def HasPortPermission (plat : Platform) (s : ChooserState) (origin : Origin)
    (port : SerialPortInfo) : Option Bool :=
  if port.token ∈ s.ephemeral_ports origin then some true
  else if CanStorePersistentEntry plat port = false then some false
  else scanGranted plat port (s.granted_objects origin)

/-- A device lifecycle event as handed to an observer. -/
inductive PortEvent where
  | added (port : SerialPortInfo)
  | removed (port : SerialPortInfo)
deriving DecidableEq, Repr

/-- `SerialChooserContext::OnPortAdded`: notify every observer, in
registration order; the state is untouched. -/
def OnPortAdded (s : ChooserState) (port : SerialPortInfo) :
    ChooserState × List (Nat × PortEvent) :=
  (s, s.observers.map (fun obs => (obs, PortEvent.added port)))

/-- `SerialChooserContext::OnPortRemoved`: notify every observer, then
erase the token from the live identity map. -/
def OnPortRemoved (s : ChooserState) (port : SerialPortInfo) :
    ChooserState × List (Nat × PortEvent) :=
  ({ s with port_info := mapErase port.token s.port_info },
   s.observers.map (fun obs => (obs, PortEvent.removed port)))

/-- `SerialChooserContext::OnPortManagerConnectionError`: clear the live
identity map and the whole ephemeral-grant structure; the durable
collection is not touched. -/
def OnPortManagerConnectionError (s : ChooserState) : ChooserState :=
  { s with port_info := [], ephemeral_ports := fun _ => [] }

/-- `SerialChooserContext::AddPortObserver`. -/
def AddPortObserver (obs : Nat) (s : ChooserState) : ChooserState :=
  { s with observers := s.observers ++ [obs] }

/-- `SerialChooserContext::RemovePortObserver`. -/
def RemovePortObserver (obs : Nat) (s : ChooserState) : ChooserState :=
  { s with observers := s.observers.filter (fun x => decide (x ≠ obs)) }

/-! ## Concrete fixtures used by witnesses and counterexamples -/

/-- A sample session token. -/
def tok1 : Token := ⟨1, 2⟩

/-- A second sample session token. -/
def tok2 : Token := ⟨3, 4⟩

/-- A port without a display name: not persistable on any platform. -/
def ephPort : SerialPortInfo :=
  { token := tok1, display_name := none, path := "ttyUSB0",
    device_instance_id := "", has_vendor_id := true, vendor_id := 4660,
    has_product_id := true, product_id := 22136,
    serial_number := some "ABC123", usb_driver_name := none }

/-- A port with display name, vendor/product ids and serial number:
persistable on the vendor/product/serial build. -/
def widgetPort : SerialPortInfo :=
  { token := tok2, display_name := some "Widget Adapter", path := "ttyUSB1",
    device_instance_id := "", has_vendor_id := true, vendor_id := 4660,
    has_product_id := true, product_id := 22136,
    serial_number := some "ABC123", usb_driver_name := none }

/-- A context with two live identities and one registered observer. -/
def obsState : ChooserState :=
  { initialState with
      port_info := [(tok1, PortInfoToValue .other ephPort),
                    (tok2, PortInfoToValue .other widgetPort)],
      observers := [7] }

/-! ## Codec lemmas -/

theorem decChar_encChar : ∀ v < 64, decChar (encChar v) = some v := by decide

theorem encChar_ne_pad : ∀ v < 64, encChar v ≠ '=' := by decide

theorem b64_roundtrip : ∀ bs : List Nat, (∀ b ∈ bs, b < 256) →
    b64decBytes (b64encBytes bs) = some bs := by
  intro bs h
  induction bs using b64encBytes.induct with
  | case1 => simp [b64encBytes, b64decBytes]
  | case2 b1 =>
      have hb1 : b1 < 256 := h b1 (by simp)
      simp only [b64encBytes, b64decBytes]
      rw [decChar_encChar _ (by omega), decChar_encChar _ (by omega)]
      simp only [and_self, if_true, Option.some.injEq, List.cons.injEq, and_true]
      omega
  | case3 b1 b2 =>
      have hb1 : b1 < 256 := h b1 (by simp)
      have hb2 : b2 < 256 := h b2 (by simp)
      simp only [b64encBytes, b64decBytes]
      rw [if_neg (encChar_ne_pad _ (by omega))]
      rw [decChar_encChar _ (by omega), decChar_encChar _ (by omega),
          decChar_encChar _ (by omega)]
      simp only [and_self, if_true, Option.some.injEq, List.cons.injEq, and_true]
      omega
  | case4 b1 b2 b3 rest ih =>
      have hb1 : b1 < 256 := h b1 (by simp)
      have hb2 : b2 < 256 := h b2 (by simp)
      have hb3 : b3 < 256 := h b3 (by simp)
      have hrest : ∀ b ∈ rest, b < 256 := by
        intro b hb; exact h b (by simp [hb])
      simp only [b64encBytes, b64decBytes]
      rw [if_neg (encChar_ne_pad _ (by omega)), if_neg (encChar_ne_pad _ (by omega))]
      rw [decChar_encChar _ (by omega), decChar_encChar _ (by omega),
          decChar_encChar _ (by omega), decChar_encChar _ (by omega)]
      rw [ih hrest]
      simp only [Option.map_some', Option.some.injEq, List.cons.injEq, and_true]
      omega

theorem tokenBytes_lt (t : Token) : ∀ b ∈ tokenBytes t, b < 256 := by
  intro b hb
  simp only [tokenBytes, List.mem_cons, List.not_mem_nil, or_false] at hb
  rcases hb with h | h | h | h | h | h | h | h | h | h | h | h | h | h | h | h <;>
    subst h <;> omega

theorem leDigits (n : Nat) (h : n < 18446744073709551616) :
    n % 256 + 256 * (n / 256 % 256 + 256 * (n / 65536 % 256 + 256 *
      (n / 16777216 % 256 + 256 * (n / 4294967296 % 256 + 256 *
      (n / 1099511627776 % 256 + 256 * (n / 281474976710656 % 256 + 256 *
      (n / 72057594037927936 % 256))))))) = n := by
  have e2 : n / 65536 = n / 256 / 256 := by
    rw [Nat.div_div_eq_div_mul]
  have e3 : n / 16777216 = n / 65536 / 256 := by
    rw [Nat.div_div_eq_div_mul]
  have e4 : n / 4294967296 = n / 16777216 / 256 := by
    rw [Nat.div_div_eq_div_mul]
  have e5 : n / 1099511627776 = n / 4294967296 / 256 := by
    rw [Nat.div_div_eq_div_mul]
  have e6 : n / 281474976710656 = n / 1099511627776 / 256 := by
    rw [Nat.div_div_eq_div_mul]
  have e7 : n / 72057594037927936 = n / 281474976710656 / 256 := by
    rw [Nat.div_div_eq_div_mul]
  rw [e7, e6, e5, e4, e3, e2]
  omega

theorem token_roundtrip (t : Token) (h1 : t.high < 18446744073709551616)
    (h2 : t.low < 18446744073709551616) : DecodeToken (EncodeToken t) = t := by
  obtain ⟨hi, lo⟩ := t
  simp only at h1 h2
  have hdec := b64_roundtrip (tokenBytes ⟨hi, lo⟩) (tokenBytes_lt _)
  unfold DecodeToken Base64Decode EncodeToken
  rw [show (String.mk (b64encBytes (tokenBytes ⟨hi, lo⟩))).data
        = b64encBytes (tokenBytes ⟨hi, lo⟩) from rfl]
  rw [hdec]
  dsimp only
  rw [if_pos (by simp [tokenBytes])]
  simp only [tokenBytes, List.take, List.drop, leVal, Nat.mul_zero, Nat.add_zero]
  simp only [Token.mk.injEq]
  exact ⟨leDigits hi h1, leDigits lo h2⟩

theorem encode_length (t : Token) : (EncodeToken t).length = 24 := by
  obtain ⟨hi, lo⟩ := t
  unfold EncodeToken
  rw [show (String.mk (b64encBytes (tokenBytes ⟨hi, lo⟩))).length
        = (b64encBytes (tokenBytes ⟨hi, lo⟩)).length from rfl]
  simp [tokenBytes, b64encBytes]

/-! ## Store lemmas -/

theorem scanGranted_spec (plat : Platform) (port : SerialPortInfo) :
    ∀ (l : List PortRecord) (b : Bool), scanGranted plat port l = some b →
      (b = true ↔ ∃ r ∈ l, matchesRecord plat r port = some true) := by
  intro l
  induction l with
  | nil =>
      intro b hb
      simp only [scanGranted, Option.some.injEq] at hb
      subst hb
      simp
  | cons r rest ih =>
      intro b hb
      simp only [scanGranted] at hb
      cases hm : matchesRecord plat r port with
      | none => rw [hm] at hb; cases hb
      | some bv =>
          rw [hm] at hb
          cases bv with
          | true =>
              simp only [Option.some.injEq] at hb
              subst hb
              simp only [true_iff]
              exact ⟨r, by simp, hm⟩
          | false =>
              simp only at hb
              rw [ih b hb]
              simp only [List.mem_cons]
              constructor
              · rintro ⟨r2, hr2, hm2⟩; exact ⟨r2, Or.inr hr2, hm2⟩
              · rintro ⟨r2, hr2 | hr2, hm2⟩
                · subst hr2; rw [hm] at hm2; cases hm2
                · exact ⟨r2, hr2, hm2⟩

theorem mapLookup_mapInsert_isSome (k : Token) (v : PortRecord)
    (m : List (Token × PortRecord)) :
    (mapLookup k (mapInsert k v m)).isSome = true := by
  unfold mapInsert mapLookup
  by_cases h : m.any (fun kv => decide (kv.1 = k))
  · rw [if_pos h]
    rw [List.any_eq_true] at h
    obtain ⟨kv, hmem, hkv⟩ := h
    have : (m.find? (fun kv => decide (kv.1 = k))).isSome := by
      rw [List.find?_isSome]
      exact ⟨kv, hmem, hkv⟩
    cases hf : m.find? (fun kv => decide (kv.1 = k)) with
    | none => rw [hf] at this; cases this
    | some kv2 => rfl
  · rw [if_neg h]
    have hnone : m.find? (fun kv => decide (kv.1 = k)) = none := by
      rw [List.find?_eq_none]
      intro x hx
      intro hpx
      exact h (List.any_eq_true.mpr ⟨x, hx, hpx⟩)
    rw [List.find?_append, hnone]
    simp [List.find?]

theorem mapLookup_mapInsert_fresh (k : Token) (v : PortRecord)
    (m : List (Token × PortRecord)) (h : mapLookup k m = none) :
    mapLookup k (mapInsert k v m) = some v := by
  unfold mapLookup at h
  have hnone : m.find? (fun kv => decide (kv.1 = k)) = none := by
    cases hf : m.find? (fun kv => decide (kv.1 = k)) with
    | none => rfl
    | some kv2 => rw [hf] at h; cases h
  unfold mapInsert mapLookup
  have hany : ¬ m.any (fun kv => decide (kv.1 = k)) = true := by
    intro hc
    rw [List.any_eq_true] at hc
    obtain ⟨kv, hmem, hkv⟩ := hc
    rw [List.find?_eq_none] at hnone
    exact hnone kv hmem hkv
  rw [if_neg hany, List.find?_append, hnone]
  simp [List.find?]

theorem mapLookup_mapErase_self (k : Token) (m : List (Token × PortRecord)) :
    mapLookup k (mapErase k m) = none := by
  induction m with
  | nil => rfl
  | cons kv rest ih =>
      unfold mapErase at ih ⊢
      unfold mapLookup at ih ⊢
      rw [List.filter_cons]
      by_cases hk : kv.1 = k
      · rw [if_neg (by simp [hk])]
        exact ih
      · rw [if_pos (by simp [hk])]
        simp only [List.find?, decide_eq_false hk]
        exact ih

theorem mapLookup_mapErase_other (k t : Token) (m : List (Token × PortRecord))
    (h : t ≠ k) : mapLookup t (mapErase k m) = mapLookup t m := by
  induction m with
  | nil => rfl
  | cons kv rest ih =>
      unfold mapErase at ih ⊢
      unfold mapLookup at ih ⊢
      rw [List.filter_cons]
      by_cases hk : kv.1 = k
      · rw [if_neg (by simp [hk])]
        have hd : decide (kv.1 = t) = false :=
          decide_eq_false (fun he => h (he.symm.trans hk))
        simp only [List.find?, hd]
        exact ih
      · rw [if_pos (by simp [hk])]
        by_cases ht : kv.1 = t
        · simp only [List.find?, decide_eq_true ht]
        · simp only [List.find?, decide_eq_false ht]
          exact ih

/-! ## Claims -/

/-- C1: whenever `HasPortPermission` returns, it returns true exactly when
the descriptor's session token is in the origin's ephemeral set, or the
descriptor is persistable and some record of the origin's durable
collection satisfies the match; and it returns false outright when the
descriptor is not persistable and no ephemeral grant for its exact token
exists. -/
theorem check_characterization (plat : Platform) (s : ChooserState)
    (origin : Origin) (port : SerialPortInfo) :
    (∀ b : Bool, HasPortPermission plat s origin port = some b →
      (b = true ↔ port.token ∈ s.ephemeral_ports origin ∨
        (CanStorePersistentEntry plat port = true ∧
          ∃ r ∈ s.granted_objects origin, matchesRecord plat r port = some true)))
    ∧ (port.token ∉ s.ephemeral_ports origin →
        CanStorePersistentEntry plat port = false →
        HasPortPermission plat s origin port = some false) := by
  constructor
  · intro b hb
    unfold HasPortPermission at hb
    by_cases he : port.token ∈ s.ephemeral_ports origin
    · rw [if_pos he] at hb
      simp only [Option.some.injEq] at hb
      subst hb
      simp [he]
    · rw [if_neg he] at hb
      by_cases hc : CanStorePersistentEntry plat port = false
      · rw [if_pos hc] at hb
        simp only [Option.some.injEq] at hb
        subst hb
        simp [he, hc]
      · rw [if_neg hc] at hb
        rw [scanGranted_spec plat port _ b hb]
        simp only [Bool.not_eq_false] at hc
        simp [he, hc]
  · intro he hc
    unfold HasPortPermission
    rw [if_neg he, if_pos hc]

/-- C1 witness: a never-granted, non-persistable port is denied. -/
theorem check_characterization_witness :
    HasPortPermission .other initialState "https://a.example" ephPort
      = some false :=
  (check_characterization .other initialState "https://a.example" ephPort).2
    (by decide) (by decide)

/-- C2: `CanStorePersistentEntry` holds exactly when the display name is
present and non-empty and, on the stable-instance-id build, the instance
id is non-empty; on the plain build, vendor and product ids are flagged
present and the serial number is present and non-empty; on the
driver-disambiguating build, additionally the driver name is present and
non-empty. -/
theorem canPersist_spec (plat : Platform) (port : SerialPortInfo) :
    CanStorePersistentEntry plat port = true ↔
      ((∃ n, port.display_name = some n ∧ n ≠ "") ∧
        match plat with
        | .win => port.device_instance_id ≠ ""
        | .other =>
            port.has_vendor_id = true ∧ port.has_product_id = true ∧
              ∃ sn, port.serial_number = some sn ∧ sn ≠ ""
        | .mac =>
            port.has_vendor_id = true ∧ port.has_product_id = true ∧
              (∃ sn, port.serial_number = some sn ∧ sn ≠ "") ∧
              ∃ d, port.usb_driver_name = some d ∧ d ≠ "") := by
  obtain ⟨tok, dn, path, iid, hv, v, hp, p, sn, drv⟩ := port
  cases dn with
  | none => cases plat <;> simp [CanStorePersistentEntry]
  | some n =>
      by_cases hn : n = ""
      · subst hn; cases plat <;> simp [CanStorePersistentEntry]
      · cases plat <;> cases sn <;> cases drv <;>
          simp [CanStorePersistentEntry, hn] <;> tauto

/-- C2 witness: the sample widget port is persistable on the
vendor/product/serial build. -/
theorem canPersist_spec_witness :
    CanStorePersistentEntry .other widgetPort = true :=
  (canPersist_spec .other widgetPort).mpr
    ⟨⟨"Widget Adapter", by decide, by decide⟩, by decide, by decide,
      "ABC123", by decide, by decide⟩

/-- C3: `GrantPortPermission` puts the token into the live identity map
(keeping an existing entry, recording the serialized descriptor when the
token is fresh) and then writes exactly one kind of grant: a durable
record appended for the origin when the port is persistable (ephemeral
sets untouched), otherwise the session token inserted into the origin's
ephemeral set (durable collections untouched). -/
theorem grant_routes_exactly_one (plat : Platform) (origin : Origin)
    (port : SerialPortInfo) (s : ChooserState) :
    (mapLookup port.token (GrantPortPermission plat origin port s).port_info).isSome
        = true
    ∧ (mapLookup port.token s.port_info = none →
        mapLookup port.token (GrantPortPermission plat origin port s).port_info
          = some (PortInfoToValue plat port))
    ∧ (CanStorePersistentEntry plat port = true →
        (GrantPortPermission plat origin port s).granted_objects origin
            = s.granted_objects origin ++ [PortInfoToValue plat port]
        ∧ (GrantPortPermission plat origin port s).ephemeral_ports
            = s.ephemeral_ports)
    ∧ (CanStorePersistentEntry plat port = false →
        (GrantPortPermission plat origin port s).ephemeral_ports origin
            = setInsert port.token (s.ephemeral_ports origin)
        ∧ (GrantPortPermission plat origin port s).granted_objects
            = s.granted_objects) := by
  unfold GrantPortPermission
  by_cases hc : CanStorePersistentEntry plat port = true
  · rw [if_pos hc]
    refine ⟨mapLookup_mapInsert_isSome _ _ _, ?_, ?_, ?_⟩
    · intro h; exact mapLookup_mapInsert_fresh _ _ _ h
    · intro _; exact ⟨by simp, rfl⟩
    · intro h; rw [hc] at h; cases h
  · rw [if_neg hc]
    simp only [Bool.not_eq_true] at hc
    refine ⟨mapLookup_mapInsert_isSome _ _ _, ?_, ?_, ?_⟩
    · intro h; exact mapLookup_mapInsert_fresh _ _ _ h
    · intro h; rw [hc] at h; cases h
    · intro _; exact ⟨by simp, rfl⟩

/-- C3 witness: granting the ephemeral sample port records its identity
and an ephemeral grant but no durable record. -/
theorem grant_routes_exactly_one_witness :
    (mapLookup tok1 (GrantPortPermission .other "https://a.example" ephPort
        initialState).port_info).isSome = true
    ∧ mapLookup tok1 (GrantPortPermission .other "https://a.example" ephPort
        initialState).port_info = some (PortInfoToValue .other ephPort)
    ∧ (GrantPortPermission .other "https://a.example" ephPort
        initialState).ephemeral_ports "https://a.example" = [tok1]
    ∧ (GrantPortPermission .other "https://a.example" ephPort
        initialState).granted_objects "https://a.example" = [] := by
  have h := grant_routes_exactly_one .other "https://a.example" ephPort initialState
  refine ⟨h.1, h.2.1 (by decide), ?_, ?_⟩
  · rw [(h.2.2.2 (by decide)).1]; decide
  · rw [congrFun (h.2.2.2 (by decide)).2 "https://a.example"]
    rfl

/-- C4: after `OnPortManagerConnectionError` the live identity map and the
whole ephemeral-grant structure are empty, the durable collection is
unchanged, and a check for any non-persistable (hence only ever
ephemerally grantable) port returns false. -/
theorem disconnect_clears (plat : Platform) (s : ChooserState)
    (origin : Origin) (port : SerialPortInfo) :
    (OnPortManagerConnectionError s).port_info = []
    ∧ (OnPortManagerConnectionError s).ephemeral_ports = (fun _ => [])
    ∧ (OnPortManagerConnectionError s).granted_objects = s.granted_objects
    ∧ (CanStorePersistentEntry plat port = false →
        HasPortPermission plat (OnPortManagerConnectionError s) origin port
          = some false) := by
  refine ⟨rfl, rfl, rfl, ?_⟩
  intro hc
  unfold HasPortPermission OnPortManagerConnectionError
  rw [if_neg (by simp), if_pos hc]

/-- C4 witness: an ephemeral grant no longer authorizes after the
connection drops. -/
theorem disconnect_clears_witness :
    HasPortPermission .other (OnPortManagerConnectionError
        (GrantPortPermission .other "https://a.example" ephPort initialState))
      "https://a.example" ephPort = some false :=
  (disconnect_clears .other
      (GrantPortPermission .other "https://a.example" ephPort initialState)
      "https://a.example" ephPort).2.2.2 (by decide)

/-- C5: the claim says a stored record missing an expected attribute is
skipped as a non-match; the code instead dereferences the null result of
`FindIntKey` / `FindStringKey` (undefined behaviour, modelled `none`), so
a corrupted record faults the scan instead of being skipped. -/
theorem corrupt_record_faults :
    matchesRecord .other emptyRecord widgetPort = none
    ∧ matchesRecord .win emptyRecord widgetPort = none
    ∧ HasPortPermission .other
        { initialState with granted_objects := fun _ => [emptyRecord] }
        "https://a.example" widgetPort = none := by
  refine ⟨rfl, rfl, ?_⟩
  decide

/-- C6: decoding an encoded token recovers the token, and the encoding has
the fixed length 24 regardless of the token value. -/
theorem token_codec_roundtrip (t : Token)
    (h1 : t.high < 18446744073709551616) (h2 : t.low < 18446744073709551616) :
    DecodeToken (EncodeToken t) = t ∧ (EncodeToken t).length = 24 :=
  ⟨token_roundtrip t h1 h2, encode_length t⟩

/-- C6 witness: round trip at a concrete 128-bit token. -/
theorem token_codec_roundtrip_witness :
    DecodeToken (EncodeToken ⟨81985529216486895, 18364758544493064720⟩)
        = (⟨81985529216486895, 18364758544493064720⟩ : Token)
    ∧ (EncodeToken (⟨81985529216486895, 18364758544493064720⟩ : Token)).length = 24 :=
  token_codec_roundtrip ⟨81985529216486895, 18364758544493064720⟩
    (by decide) (by decide)

/-- C7: on base64 failure or any decoded length other than 16 bytes,
`DecodeToken` returns the null sentinel token instead of failing, and the
sentinel is distinguishable from the decode of any valid (in-bounds,
non-null) token. -/
theorem decode_failure_sentinel :
    (∀ s : String, Base64Decode s = none → DecodeToken s = nullToken)
    ∧ (∀ (s : String) (bs : List Nat), Base64Decode s = some bs →
        bs.length ≠ 16 → DecodeToken s = nullToken)
    ∧ (∀ t : Token, t.inBounds → t ≠ nullToken →
        DecodeToken (EncodeToken t) ≠ nullToken) := by
  refine ⟨?_, ?_, ?_⟩
  · intro s h
    unfold DecodeToken
    rw [h]
  · intro s bs h hlen
    unfold DecodeToken
    rw [h]
    dsimp only
    rw [if_neg hlen]
  · intro t hb hne
    rw [token_roundtrip t hb.1 hb.2]
    exact hne

/-- C7 witness: a non-base64 string and a wrong-length string decode to
the sentinel; a concrete valid token does not. -/
theorem decode_failure_sentinel_witness :
    DecodeToken "!" = nullToken
    ∧ DecodeToken "AAAA" = nullToken
    ∧ DecodeToken (EncodeToken ⟨1, 2⟩) ≠ nullToken := by
  refine ⟨decode_failure_sentinel.1 "!" (by decide),
          decode_failure_sentinel.2.1 "AAAA" [0, 0, 0] (by decide) (by decide),
          decode_failure_sentinel.2.2 ⟨1, 2⟩ ⟨by decide, by decide⟩ (by decide)⟩

/-- C8 counterexample: `OnPortAdded` does not insert the descriptor into
the live identity map — after handling an arrival on an empty context the
token is still absent, contradicting the claim's "inserts the descriptor
into the live identity map". -/
theorem onPortAdded_no_insert :
    mapLookup widgetPort.token
        (OnPortAdded initialState widgetPort).1.port_info = none := by decide

/-- C8 amended: `OnPortAdded` forwards the event to every registered
observer and leaves the state (including the live identity map)
unchanged; `OnPortRemoved` forwards to every observer and erases exactly
the descriptor's token from the live identity map, leaving ephemeral and
durable grants unchanged. -/
theorem port_event_handlers (s : ChooserState) (port : SerialPortInfo) :
    (OnPortAdded s port).1 = s
    ∧ (OnPortAdded s port).2
        = s.observers.map (fun obs => (obs, PortEvent.added port))
    ∧ mapLookup port.token (OnPortRemoved s port).1.port_info = none
    ∧ (∀ t, t ≠ port.token →
        mapLookup t (OnPortRemoved s port).1.port_info
          = mapLookup t s.port_info)
    ∧ (OnPortRemoved s port).1.ephemeral_ports = s.ephemeral_ports
    ∧ (OnPortRemoved s port).1.granted_objects = s.granted_objects
    ∧ (OnPortRemoved s port).2
        = s.observers.map (fun obs => (obs, PortEvent.removed port)) := by
  refine ⟨rfl, rfl, mapLookup_mapErase_self _ _, ?_, rfl, rfl, rfl⟩
  intro t ht
  exact mapLookup_mapErase_other _ _ _ ht

/-- C8 witness: event handling on a concrete two-entry context with one
observer. -/
theorem port_event_handlers_witness :
    (OnPortAdded obsState ephPort).1 = obsState
    ∧ (OnPortAdded obsState ephPort).2 = [(7, PortEvent.added ephPort)]
    ∧ mapLookup tok1 (OnPortRemoved obsState ephPort).1.port_info = none
    ∧ mapLookup tok2 (OnPortRemoved obsState ephPort).1.port_info
        = mapLookup tok2 obsState.port_info
    ∧ (OnPortRemoved obsState ephPort).2 = [(7, PortEvent.removed ephPort)] := by
  have h := port_event_handlers obsState ephPort
  exact ⟨h.1, h.2.1, h.2.2.1, h.2.2.2.1 tok2 (by decide), h.2.2.2.2.2.2⟩

/-- C9 counterexample: for a non-persistable port the serialized record
carries the `name` key (here the path fallback) in addition to the
encoded token, contradicting the claim's "emits only the encoded
session-token identity key". -/
theorem ephemeral_record_includes_name :
    (PortInfoToValue .other ephPort).name = some "ttyUSB0"
    ∧ CanStorePersistentEntry .other ephPort = false := by decide

/-- C9 amended: for a non-persistable descriptor the record holds exactly
the name (display name or path fallback) and the encoded session token;
for a persistable descriptor it holds the display name, no token key, and
the platform-appropriate stable identity attributes. -/
theorem portInfoToValue_fields (plat : Platform) (port : SerialPortInfo) :
    (CanStorePersistentEntry plat port = false →
      PortInfoToValue plat port =
        { emptyRecord with
            name := some (portDisplay port),
            token := some (EncodeToken port.token) })
    ∧ (CanStorePersistentEntry plat port = true →
        (∃ n, port.display_name = some n ∧
            (PortInfoToValue plat port).name = some n)
        ∧ (PortInfoToValue plat port).token = none
        ∧ (plat = .win → PortInfoToValue plat port =
            { emptyRecord with
                name := some (portDisplay port),
                device_instance_id := some port.device_instance_id })
        ∧ (plat = .other → PortInfoToValue plat port =
            { emptyRecord with
                name := some (portDisplay port),
                vendor_id := some (port.vendor_id : Int),
                product_id := some (port.product_id : Int),
                serial_number := port.serial_number })
        ∧ (plat = .mac → PortInfoToValue plat port =
            { emptyRecord with
                name := some (portDisplay port),
                vendor_id := some (port.vendor_id : Int),
                product_id := some (port.product_id : Int),
                serial_number := port.serial_number,
                usb_driver := port.usb_driver_name })) := by
  constructor
  · intro hc
    unfold PortInfoToValue
    rw [if_pos hc]
  · intro hc
    have hname : ∃ n, port.display_name = some n ∧ n ≠ "" := by
      unfold CanStorePersistentEntry at hc
      cases hdn : port.display_name with
      | none => rw [hdn] at hc; cases hc
      | some n =>
          rw [hdn] at hc
          dsimp only at hc
          by_cases hn : n = ""
          · rw [if_pos hn] at hc; cases hc
          · exact ⟨n, rfl, hn⟩
    obtain ⟨n, hdn, hn⟩ := hname
    have hdisp : portDisplay port = n := by
      unfold portDisplay
      rw [hdn]
      dsimp only
      rw [if_neg hn]
    refine ⟨⟨n, hdn, ?_⟩, ?_, ?_, ?_, ?_⟩
    · unfold PortInfoToValue
      rw [if_neg (by simp [hc])]
      cases plat <;> simp [hdisp]
    · unfold PortInfoToValue
      rw [if_neg (by simp [hc])]
      cases plat <;> rfl
    · rintro rfl
      unfold PortInfoToValue
      rw [if_neg (by simp [hc])]
    · rintro rfl
      unfold PortInfoToValue
      rw [if_neg (by simp [hc])]
    · rintro rfl
      unfold PortInfoToValue
      rw [if_neg (by simp [hc])]

/-- C9 witness: concrete serialized records for the ephemeral and the
persistable sample ports. -/
theorem portInfoToValue_fields_witness :
    PortInfoToValue .other ephPort =
      { emptyRecord with
          name := some "ttyUSB0",
          token := some (EncodeToken tok1) }
    ∧ (PortInfoToValue .other widgetPort).name = some "Widget Adapter"
    ∧ (PortInfoToValue .other widgetPort).token = none
    ∧ PortInfoToValue .other widgetPort =
      { emptyRecord with
          name := some "Widget Adapter",
          vendor_id := some 4660, product_id := some 22136,
          serial_number := some "ABC123" } := by
  have h1 := (portInfoToValue_fields .other ephPort).1 (by decide)
  have h2 := (portInfoToValue_fields .other widgetPort).2 (by decide)
  refine ⟨h1, ?_, h2.2.1, ?_⟩
  · obtain ⟨n, hdn, hv⟩ := h2.1
    have : n = "Widget Adapter" := by
      have := hdn
      simp [widgetPort] at this
      exact this.symm
    rw [hv, this]
  · rw [h2.2.2.2.1 rfl]
    decide

/-- C10: an ephemeral grant to one origin never changes the permission
decision for a different origin: the ephemeral sets are keyed by origin
and the durable collection is untouched by an ephemeral grant. -/
theorem ephemeral_grant_isolated (plat : Platform) (s : ChooserState)
    (a b : Origin) (d d2 : SerialPortInfo)
    (hab : a ≠ b) (hd : CanStorePersistentEntry plat d = false) :
    HasPortPermission plat (GrantPortPermission plat a d s) b d2
      = HasPortPermission plat s b d2 := by
  unfold GrantPortPermission
  rw [if_neg (by simp [hd])]
  unfold HasPortPermission
  dsimp only
  rw [if_neg (show ¬ b = a from fun h => hab h.symm)]

/-- C10 witness: a concrete ephemeral grant to one origin leaves another
origin's check unchanged. -/
theorem ephemeral_grant_isolated_witness :
    HasPortPermission .other
        (GrantPortPermission .other "https://a.example" ephPort initialState)
        "https://b.example" ephPort
      = HasPortPermission .other initialState "https://b.example" ephPort :=
  ephemeral_grant_isolated .other initialState "https://a.example"
    "https://b.example" ephPort ephPort (by decide) (by decide)

end Electron
